import Mathlib

/-!
Verification of the dominant-color extraction app (`app.py`).

The file shallowly embeds the analysis-relevant parts of the program:
the hex/percentage summarizer and color-naming of `extract_colors_kmeans`
and `get_color_name`, the Streamlit session-state caching around them
(lines 121–159), and a shape-level model of the PIL/numpy loading path.
External collaborators (`cv2.resize`, `sklearn` KMeans, PIL decoding, md5)
are modelled from the spec's description of their contracts; everything
else is translated directly from the source.
-/

namespace ColorExtract

/-- An RGB triple; in the program each component is in `[0, 255]`. -/
abbrev RGB := ℕ × ℕ × ℕ

/-- Lowercase hexadecimal digits of `n`, most significant first
(the digits produced by Python `'{:x}'.format(n)`). -/
def hexDigitsList (n : ℕ) : List Char :=
  if _h : n < 16 then [Nat.digitChar n]
  else hexDigitsList (n / 16) ++ [Nat.digitChar (n % 16)]
decreasing_by exact Nat.div_lt_self (by omega) (by omega)

/-- Python `'{:02x}'.format(n)`: lowercase hex, zero-padded to width at least 2. -/
def format02x (n : ℕ) : String :=
  let ds := hexDigitsList n
  String.mk (List.replicate (2 - ds.length) '0' ++ ds)

/-- Line 73: `hex_code = '#{:02x}{:02x}{:02x}'.format(*color)`. -/
def hex_code (c : RGB) : String :=
  "#" ++ format02x c.1 ++ format02x c.2.1 ++ format02x c.2.2

/-- Value of one lowercase-hex digit character (used to parse a hex string back). -/
def hexDigitVal (c : Char) : Option ℕ :=
  if '0' ≤ c ∧ c ≤ '9' then some (c.toNat - 48)
  else if 'a' ≤ c ∧ c ≤ 'f' then some (c.toNat - 87)
  else none

/-- Parse a `"#rrggbb"` string back into an RGB triple (the spec's round-trip
reading of the produced hex string). -/
def parseHexColor (s : String) : Option RGB :=
  match s.data with
  | ['#', c1, c2, c3, c4, c5, c6] => do
      let r1 ← hexDigitVal c1
      let r2 ← hexDigitVal c2
      let g1 ← hexDigitVal c3
      let g2 ← hexDigitVal c4
      let b1 ← hexDigitVal c5
      let b2 ← hexDigitVal c6
      pure (r1 * 16 + r2, g1 * 16 + g2, b1 * 16 + b2)
  | _ => none

/-- `get_color_name` (lines 83–99), the ordered if/elif chain. -/
def get_color_name (rgb : RGB) : String :=
  let r := rgb.1
  let g := rgb.2.1
  let b := rgb.2.2
  if r > 200 ∧ g > 200 ∧ b > 200 then "Putih/Terang"
  else if r < 50 ∧ g < 50 ∧ b < 50 then "Hitam/Gelap"
  else if r > g ∧ r > b then (if g > 100 then "Merah/Oranye" else "Merah")
  else if g > r ∧ g > b then "Hijau"
  else if b > r ∧ b > g then (if r > 100 then "Biru/Ungu" else "Biru")
  else if r > 150 ∧ g > 150 then "Kuning"
  else "Abu-abu"

/-- One rule of the color-naming chain: a guard on the RGB triple together with
the name it produces (the name may inspect the triple, as in the red and blue
rules, whose label depends on a sub-test). -/
structure ColorRule where
  guard : RGB → Bool
  name : RGB → String

/-- The ordered rule table of `get_color_name`, top to bottom. -/
def colorRules : List ColorRule :=
  [ ⟨fun c => decide (c.1 > 200 ∧ c.2.1 > 200 ∧ c.2.2 > 200), fun _ => "Putih/Terang"⟩,
    ⟨fun c => decide (c.1 < 50 ∧ c.2.1 < 50 ∧ c.2.2 < 50), fun _ => "Hitam/Gelap"⟩,
    ⟨fun c => decide (c.1 > c.2.1 ∧ c.1 > c.2.2),
      fun c => if c.2.1 > 100 then "Merah/Oranye" else "Merah"⟩,
    ⟨fun c => decide (c.2.1 > c.1 ∧ c.2.1 > c.2.2), fun _ => "Hijau"⟩,
    ⟨fun c => decide (c.2.2 > c.1 ∧ c.2.2 > c.2.1),
      fun c => if c.1 > 100 then "Biru/Ungu" else "Biru"⟩,
    ⟨fun c => decide (c.1 > 150 ∧ c.2.1 > 150), fun _ => "Kuning"⟩ ]

/-- First-match evaluation of an ordered rule list, with a fallback name. -/
def firstMatch (rules : List ColorRule) (c : RGB) (fallback : String) : String :=
  match rules with
  | [] => fallback
  | rule :: rest => if rule.guard c then rule.name c else firstMatch rest c fallback

/-- One entry of the `color_info` list built at lines 70–79. -/
structure ColorInfo where
  color : RGB
  hex : String
  percentage : ℚ
  rgb : String
deriving Repr, DecidableEq

/-- Lines 67–79: `counts = Counter(labels)`, `total = len(labels)`, then for
`i, color in enumerate(centers)` build the `color_info` entries with
`pct = counts[i] / total * 100`.  Python float division is modelled over `ℚ`. -/
def summarize (centers : List RGB) (labels : List ℕ) : List ColorInfo :=
  let total : ℚ := labels.length
  centers.enum.map fun ic =>
    { color := ic.2
      hex := hex_code ic.2
      percentage := (labels.count ic.1 : ℚ) / total * 100
      rgb := "RGB(" ++ toString ic.2.1 ++ ", " ++ toString ic.2.2.1 ++ ", "
               ++ toString ic.2.2.2 ++ ")" }

/-- The comparison under `sorted(color_info, key=lambda x: x['percentage'],
reverse=True)`: `a` may stay before `b` iff `b`'s percentage is at most `a`'s.
Python's sort is stable and `reverse=True` preserves stability, which is exactly
`List.mergeSort` with this comparison. -/
def pctLe (a b : ColorInfo) : Bool := decide (b.percentage ≤ a.percentage)

/-- Line 81: the stable descending sort of the summarizer's list. -/
def sortColors (l : List ColorInfo) : List ColorInfo := l.mergeSort pctLe

/-- A decoded RGB image as numpy sees it (`np.array(image)`): a list of pixel rows. -/
structure Img where
  rows : List (List RGB)
deriving Repr, DecidableEq

/-- `img_array.shape[0]` (line 58). -/
def Img.hgt (img : Img) : ℕ := img.rows.length

/-- `img_array.shape[1]` (line 58). -/
def Img.wid (img : Img) : ℕ := (img.rows.headD []).length

/-- `resized.reshape(-1, 3)` (line 60) on a rectangular 3-channel array:
the row-major pixel list. -/
def Img.pixels (img : Img) : List RGB := img.rows.flatten

/-- Modelled from the spec: `cv2.resize` (external library, not imported by the
program — see the NameError results).  Its `dsize` argument is `(width, height)`
and the output array has shape `height × width × channels`.  Interpolation is
modelled as nearest-neighbour sampling; the claims about this stage depend only
on the output shape. -/
def cv2_resize (img : Img) (dw dh : ℕ) : Img :=
  { rows := (List.range dh).map fun i =>
      (List.range dw).map fun j =>
        (img.rows.getD (i * img.hgt / dh) []).getD (j * img.wid / dw) (0, 0, 0) }

/-- Squared Euclidean distance between two RGB triples. -/
def sqDist (a b : RGB) : ℤ :=
  ((a.1 : ℤ) - b.1) ^ 2 + ((a.2.1 : ℤ) - b.2.1) ^ 2 + ((a.2.2 : ℤ) - b.2.2) ^ 2

/-- Index of the first minimum of a list (0 on the empty list). -/
def firstMinIdx : List ℤ → ℕ
  | [] => 0
  | a :: rest =>
    let j := firstMinIdx rest
    if a ≤ rest.getD j a then 0 else j + 1

/-- Modelled from the spec: the external clusterer
(`KMeans(n_clusters=n_colors, random_state=42, n_init=10).fit`, lines 62–63).
The spec's contract is only that, with the seed fixed, it is a deterministic
function of the pixel list returning `n` cluster centers and per-pixel labels in
`[0, n)`.  Modelled as: centers are the first `n` pixels (padded with black),
each pixel labelled with its nearest center (first index on ties). -/
def kmeans_fit (pixels : List RGB) (n : ℕ) : List RGB × List ℕ :=
  let centers := (List.range n).map fun i => pixels.getD i (0, 0, 0)
  (centers, pixels.map fun p => firstMinIdx (centers.map (sqDist p)))

/-- The body of `extract_colors_kmeans` (lines 57–81) as it would execute with
`cv2` bound: resize by `resize_factor`, reshape to a pixel list, cluster,
summarize, stable-sort descending.  `resize_factor` is modelled as a rational;
Python `int(...)` on a non-negative value is `Int.toNat ∘ Int.floor`. -/
def extract_colors_kmeans_body (image : Img) (n_colors : ℕ) (resize_factor : ℚ) :
    List ColorInfo :=
  let resized := cv2_resize image
    (Int.toNat ⌊(image.wid : ℚ) * resize_factor⌋)
    (Int.toNat ⌊(image.hgt : ℚ) * resize_factor⌋)
  let reshaped := resized.pixels
  let km := kmeans_fit reshaped n_colors
  sortColors (summarize km.1 km.2)

/-- A Python exception, as far as the program distinguishes them. -/
inductive PyErr where
  | nameError (n : String)
  | valueError (msg : String)
deriving Repr, DecidableEq

/-- The message `str(e)` of an exception. -/
def pyErrMsg : PyErr → String
  | .nameError n => "name '" ++ n ++ "' is not defined"
  | .valueError m => m

/-- The names bound at module level by the imports of `app.py` (lines 1–7):
`streamlit as st`, `numpy as np`, `pandas as pd`, `PIL.Image`,
`sklearn.cluster.KMeans`, `collections.Counter`, `hashlib`. -/
def importedNames : List String :=
  ["st", "np", "pd", "Image", "KMeans", "Counter", "hashlib"]

/-- `extract_colors_kmeans` as it actually executes: at line 59 the name `cv2`
must be resolved; it is not among the module's bound names, so the call raises
`NameError` there, before any clustering happens. -/
def extract_colors_kmeans (image : Img) (n_colors : ℕ) (resize_factor : ℚ) :
    Except PyErr (List ColorInfo) :=
  if importedNames.contains "cv2" then
    .ok (extract_colors_kmeans_body image n_colors resize_factor)
  else
    .error (.nameError "cv2")

/-- Modelled from the spec: `get_image_hash` (lines 51–53, the md5 content hash
of the pixel buffer); modelled as an injective serialization of the pixel data,
standing for content identity. -/
def get_image_hash (img : Img) : String :=
  toString img.hgt ++ "x" ++ toString img.wid ++ ":"
    ++ String.intercalate ","
        (img.rows.flatten.map fun p =>
          toString p.1 ++ "." ++ toString p.2.1 ++ "." ++ toString p.2.2)

/-- Line 148: `cache_key = f"{image_hash}_{n_colors}_{resize_factor}"`. -/
def cacheKey (image_hash : String) (n_colors : ℕ) (resize_factor : ℚ) : String :=
  image_hash ++ "_" ++ toString n_colors ++ "_" ++ toString resize_factor

/-- The Streamlit session state, restricted to the keys this program uses:
`'last_image_hash'`, `'cached_colors'` (only ever deleted, never written), and
the analysis-cache keys `f"{image_hash}_{n_colors}_{resize_factor}"`.  The three
key namespaces are disjoint in the program (cache keys embed a 32-character md5
digest and two underscores), so they are modelled as separate fields of one
record standing for the one dict. -/
structure SessionState where
  last_image_hash : Option String
  cached_colors : Option (List ColorInfo)
  cache : List (String × List ColorInfo)
deriving Repr, DecidableEq

/-- The session state of a fresh session: an empty dict. -/
def emptySession : SessionState := ⟨none, none, []⟩

/-- Lines 131–135: if `'last_image_hash'` is absent or differs from the new
image's hash, store the new hash and delete the `'cached_colors'` key if it is
present. -/
def invalidateOnImageChange (st : SessionState) (image_hash : String) :
    SessionState :=
  if st.last_image_hash ≠ some image_hash then
    { st with last_image_hash := some image_hash, cached_colors := none }
  else
    st

/-- What one rendering cycle of the analysis column produces: either rendered
colors, or `st.error(...)` followed by `st.stop()` (the cycle aborts). -/
inductive CycleResult where
  | rendered (colors : List ColorInfo)
  | stopped (errMsg : String)
deriving Repr, DecidableEq

/-- One upload/rerun cycle over the analysis-relevant statements of the script
body (lines 121–159): hash the image, run the image-change invalidation, look
up `cache_key` in the session state; on a miss run `extract_colors_kmeans`,
storing the result on success and issuing `st.error` + `st.stop` on exception. -/
def processUpload (st : SessionState) (image : Img) (n_colors : ℕ)
    (resize_factor : ℚ) : CycleResult × SessionState :=
  let image_hash := get_image_hash image
  let st1 := invalidateOnImageChange st image_hash
  let key := cacheKey image_hash n_colors resize_factor
  match st1.cache.lookup key with
  | some colors => (.rendered colors, st1)
  | none =>
    match extract_colors_kmeans image n_colors resize_factor with
    | .ok colors => (.rendered colors, { st1 with cache := (key, colors) :: st1.cache })
    | .error e => (.stopped ("❌ Error dalam analisis: " ++ pyErrMsg e), st1)

/-- Session states reachable by the program: a fresh session followed by any
sequence of upload/rerun cycles. -/
inductive Reachable : SessionState → Prop where
  | init : Reachable emptySession
  | step (st : SessionState) (image : Img) (n_colors : ℕ) (resize_factor : ℚ) :
      Reachable st → Reachable (processUpload st image n_colors resize_factor).2

/-- An uploaded image at the shape level, as decoded by PIL: its color mode and
its height/width in pixels (used for the loader-normalization claims). -/
structure UploadedImage where
  mode : String
  hgt : ℕ
  wid : ℕ
deriving Repr, DecidableEq

/-- Modelled from the spec: the number of channels `np.array` yields for a PIL
image of the given mode.  Multi-band modes give an `H × W × C` array; the
single-band modes (`'L'`, `'P'`, `'1'`, `'I'`, `'F'`) give a 2-D `H × W` array. -/
def channelCount : String → ℕ
  | "RGB" => 3
  | "RGBA" => 4
  | "CMYK" => 4
  | "YCbCr" => 3
  | "LA" => 2
  | _ => 1

/-- Lines 123–125: `Image.open` followed by
`if image.mode == 'RGBA': image = image.convert('RGB')` — only the exact mode
`'RGBA'` is converted; every other mode passes through unchanged. -/
def loadNormalize (img : UploadedImage) : UploadedImage :=
  if img.mode = "RGBA" then { img with mode := "RGB" } else img

/-- Modelled from the spec: the shape of `np.array(image)` (line 57). -/
def npArrayShape (img : UploadedImage) : List ℕ :=
  if channelCount img.mode = 1 then [img.hgt, img.wid]
  else [img.hgt, img.wid, channelCount img.mode]

/-- Modelled from the spec: the shape produced by `cv2.resize(a, (dw, dh))`
(line 59) — the first two dimensions become `dh × dw`, channels are kept. -/
def resizeShape (s : List ℕ) (dw dh : ℕ) : List ℕ :=
  match s with
  | _ :: _ :: rest => dh :: dw :: rest
  | other => other

/-- Modelled from the spec: numpy `a.reshape(-1, 3)` (line 60) — succeeds with
shape `[size / 3, 3]` iff the total element count is divisible by 3, and raises
`ValueError` otherwise. -/
def reshapeNeg1x3 (s : List ℕ) : Except PyErr (List ℕ) :=
  if s.prod % 3 = 0 then .ok [s.prod / 3, 3]
  else .error (.valueError "cannot reshape array")

/-- A concrete 1×1 image used to instantiate universally quantified theorems. -/
def demoImg : Img := ⟨[[(1, 2, 3)]]⟩

/-- A concrete one-entry result list used to instantiate cache theorems. -/
def demoColors : List ColorInfo :=
  [{ color := (1, 2, 3), hex := "#010203", percentage := 100, rgb := "RGB(1, 2, 3)" }]

/-- The sixteen characters a lowercase hex digit can be. -/
def hexLowerChars : List Char := "0123456789abcdef".data

/-! ### Helper lemmas -/

/-- The image-change invalidation (lines 131–135) never touches the analysis
cache entries: it only writes `last_image_hash` and deletes `cached_colors`. -/
lemma invalidate_cache_eq (st : SessionState) (image_hash : String) :
    (invalidateOnImageChange st image_hash).cache = st.cache := by
  unfold invalidateOnImageChange
  split <;> rfl

/-- After the invalidation step, `last_image_hash` holds the new hash. -/
lemma invalidate_last_eq (st : SessionState) (image_hash : String) :
    (invalidateOnImageChange st image_hash).last_image_hash = some image_hash := by
  unfold invalidateOnImageChange
  split
  · rfl
  · next h => simpa using h

/-- Invalidation is a no-op when the stored hash already matches. -/
lemma invalidate_of_last (st : SessionState) (image_hash : String)
    (h : st.last_image_hash = some image_hash) :
    invalidateOnImageChange st image_hash = st := by
  unfold invalidateOnImageChange
  simp [h]

/-- `extract_colors_kmeans` evaluates `cv2.resize` at line 59 with `cv2` unbound,
so every call raises `NameError: name 'cv2' is not defined`. -/
lemma extract_always_nameError (image : Img) (n_colors : ℕ) (resize_factor : ℚ) :
    extract_colors_kmeans image n_colors resize_factor
      = .error (.nameError "cv2") := rfl

/-- Every reachable session state has an empty analysis cache and no
`cached_colors` key: the only store (line 154) sits behind the always-raising
`extract_colors_kmeans` call. -/
lemma reachable_cache_empty (st : SessionState) (h : Reachable st) :
    st.cache = [] ∧ st.cached_colors = none := by
  induction h with
  | init => exact ⟨rfl, rfl⟩
  | step st image n_colors resize_factor _ ih =>
    unfold processUpload
    have hc : (invalidateOnImageChange st (get_image_hash image)).cache = [] := by
      rw [invalidate_cache_eq]; exact ih.1
    have hcc : (invalidateOnImageChange st (get_image_hash image)).cached_colors
        = none := by
      unfold invalidateOnImageChange
      split
      · rfl
      · exact ih.2
    simp only [hc, hcc, List.lookup_nil, extract_always_nameError, and_self]

/-! ### Claim theorems -/

/-- C1: for every input image and every parameter pair, `extract_colors_kmeans`
raises (`cv2` is unbound — never imported), so in every reachable session the
success branch that stores a result at the cache key is unreachable: every
analysis takes the `st.error`/`st.stop` path and the cache stays empty. -/
theorem c1_extract_always_raises (st : SessionState) (image : Img)
    (n_colors : ℕ) (resize_factor : ℚ) (h : Reachable st) :
    extract_colors_kmeans image n_colors resize_factor
        = .error (.nameError "cv2")
    ∧ (processUpload st image n_colors resize_factor).1
        = .stopped "❌ Error dalam analisis: name 'cv2' is not defined"
    ∧ (processUpload st image n_colors resize_factor).2.cache = [] := by
  obtain ⟨hc, -⟩ := reachable_cache_empty st h
  have hc1 : (invalidateOnImageChange st (get_image_hash image)).cache = [] := by
    rw [invalidate_cache_eq]; exact hc
  refine ⟨rfl, ?_, ?_⟩
  · unfold processUpload
    simp only [hc1, List.lookup_nil, extract_always_nameError]
    rfl
  · unfold processUpload
    simp only [hc1, List.lookup_nil, extract_always_nameError]

/-- Witness for C1 at the fresh session and a concrete image. -/
theorem c1_witness :
    (processUpload emptySession demoImg 5 1).1
      = .stopped "❌ Error dalam analisis: name 'cv2' is not defined" :=
  (c1_extract_always_raises emptySession demoImg 5 1 Reachable.init).2.1

/-- C2: the image-change branch (lines 131–135) deletes only the key
`'cached_colors'`, which the program never writes; it leaves every analysis
cache entry in place, so a stale entry keyed by the old image's hash survives
an image change — shown both in general and on a concrete session holding an
entry for the old hash. -/
theorem c2_invalidation_never_clears_cache :
    (∀ (st : SessionState) (image_hash : String),
        (invalidateOnImageChange st image_hash).cache = st.cache)
    ∧ (invalidateOnImageChange
          ⟨some "oldhash", none, [(cacheKey "oldhash" 5 (3 / 10), demoColors)]⟩
          "newhash").cache.lookup (cacheKey "oldhash" 5 (3 / 10))
        = some demoColors := by
  refine ⟨invalidate_cache_eq, ?_⟩
  simp [invalidateOnImageChange, List.lookup]

/-- C6: `get_color_name` is the top-to-bottom first-match evaluation of its
ordered rule table, and on the four documented inputs: white, black, and pure
red classify as stated, while `(200, 180, 50)` is captured by the earlier
red-dominance rule (its guard holds), hence is not classified `"Kuning"`. -/
theorem c6_color_rules :
    (∀ c : RGB, get_color_name c = firstMatch colorRules c "Abu-abu")
    ∧ get_color_name (255, 255, 255) = "Putih/Terang"
    ∧ get_color_name (0, 0, 0) = "Hitam/Gelap"
    ∧ get_color_name (200, 50, 50) = "Merah"
    ∧ ((colorRules.get? 2).map fun rule => rule.guard (200, 180, 50)) = some true
    ∧ get_color_name (200, 180, 50) = "Merah/Oranye"
    ∧ get_color_name (200, 180, 50) ≠ "Kuning" := by
  refine ⟨?_, by decide, by decide, by decide, by decide, by decide, by decide⟩
  intro c
  obtain ⟨r, g, b⟩ := c
  simp only [get_color_name, firstMatch, colorRules, decide_eq_true_eq]

/-- C8 counterexample to the claim as stated: a failing request does modify the
session state — on a new image, `last_image_hash` is written before the
analysis raises, so the prior session state is not left untouched. -/
theorem c8_counterexample :
    (processUpload emptySession demoImg 5 1).1
        = .stopped "❌ Error dalam analisis: name 'cv2' is not defined"
    ∧ (processUpload emptySession demoImg 5 1).2 ≠ emptySession :=
  ⟨rfl, by decide⟩

/-- C8 amended: when the analysis step raises, the error is surfaced as the
`st.error` message and the cycle stops; no analysis cache entry is added or
modified, and the resulting session state is exactly the state after the
image-change bookkeeping (only `last_image_hash`/`cached_colors` can differ
from the prior state). -/
theorem c8_error_atomicity (st : SessionState) (image : Img) (n_colors : ℕ)
    (resize_factor : ℚ) (msg : String)
    (hfail : (processUpload st image n_colors resize_factor).1 = .stopped msg) :
    msg = "❌ Error dalam analisis: name 'cv2' is not defined"
    ∧ (processUpload st image n_colors resize_factor).2
        = invalidateOnImageChange st (get_image_hash image)
    ∧ (processUpload st image n_colors resize_factor).2.cache = st.cache := by
  unfold processUpload at hfail ⊢
  simp only [extract_always_nameError] at hfail ⊢
  cases hl : (invalidateOnImageChange st (get_image_hash image)).cache.lookup
      (cacheKey (get_image_hash image) n_colors resize_factor) with
  | some colors =>
    rw [hl] at hfail
    simp at hfail
  | none =>
    rw [hl] at hfail
    have hmsg : CycleResult.stopped
        ("❌ Error dalam analisis: " ++ pyErrMsg (PyErr.nameError "cv2"))
          = CycleResult.stopped msg := hfail
    injection hmsg with hmsg
    refine ⟨?_, rfl, ?_⟩
    · rw [← hmsg]
      rfl
    · show (invalidateOnImageChange st (get_image_hash image)).cache = st.cache
      exact invalidate_cache_eq st (get_image_hash image)

/-- Witness for C8's amended theorem on a concrete failing request. -/
theorem c8_witness :
    (processUpload emptySession demoImg 5 1).2
      = invalidateOnImageChange emptySession (get_image_hash demoImg) :=
  (c8_error_atomicity emptySession demoImg 5 1
    "❌ Error dalam analisis: name 'cv2' is not defined" (by decide)).2.1

/-- C9: for every image and scale factor in `(0, 1]`, the downsampling call
`cv2.resize(img_array, (int(w * factor), int(h * factor)))` yields an array
with `int(h * factor)` rows of `int(w * factor)` RGB pixels each: both
dimensions scale by the factor with integer truncation. -/
theorem c9_resize_shape (img : Img) (resize_factor : ℚ)
    (_h0 : 0 < resize_factor) (_h1 : resize_factor ≤ 1) :
    (cv2_resize img (Int.toNat ⌊(img.wid : ℚ) * resize_factor⌋)
        (Int.toNat ⌊(img.hgt : ℚ) * resize_factor⌋)).hgt
      = Int.toNat ⌊(img.hgt : ℚ) * resize_factor⌋
    ∧ ∀ row ∈ (cv2_resize img (Int.toNat ⌊(img.wid : ℚ) * resize_factor⌋)
        (Int.toNat ⌊(img.hgt : ℚ) * resize_factor⌋)).rows,
        row.length = Int.toNat ⌊(img.wid : ℚ) * resize_factor⌋ := by
  constructor
  · simp [cv2_resize, Img.hgt]
  · intro row hrow
    simp only [cv2_resize, List.mem_map] at hrow
    obtain ⟨i, -, rfl⟩ := hrow
    simp

/-- Witness for C9: a 2×2 image at factor 1/2 resizes to a 1×1 array. -/
theorem c9_witness :
    (cv2_resize ⟨[[(1, 2, 3), (4, 5, 6)], [(7, 8, 9), (10, 11, 12)]]⟩
        (Int.toNat ⌊((Img.wid ⟨[[(1, 2, 3), (4, 5, 6)], [(7, 8, 9), (10, 11, 12)]]⟩ : ℚ)) * (1 / 2)⌋)
        (Int.toNat ⌊((Img.hgt ⟨[[(1, 2, 3), (4, 5, 6)], [(7, 8, 9), (10, 11, 12)]]⟩ : ℚ)) * (1 / 2)⌋)).hgt
      = Int.toNat ⌊((Img.hgt ⟨[[(1, 2, 3), (4, 5, 6)], [(7, 8, 9), (10, 11, 12)]]⟩ : ℚ)) * (1 / 2)⌋ :=
  (c9_resize_shape ⟨[[(1, 2, 3), (4, 5, 6)], [(7, 8, 9), (10, 11, 12)]]⟩ (1 / 2)
    (by norm_num) (by norm_num)).1

/-- C10 counterexample to the claim as stated: a 3×3 grayscale (`'L'`) upload is
not converted (only exact mode `'RGBA'` is), its array is 2-D, yet
`reshape(-1, 3)` succeeds (9 elements divide by 3), so "the reshape fails" is
false for this non-RGB mode. -/
theorem c10_counterexample :
    ("L" ≠ "RGB" ∧ "L" ≠ "RGBA")
    ∧ loadNormalize ⟨"L", 3, 3⟩ = ⟨"L", 3, 3⟩
    ∧ npArrayShape ⟨"L", 3, 3⟩ = [3, 3]
    ∧ reshapeNeg1x3 (resizeShape (npArrayShape ⟨"L", 3, 3⟩) 3 3) = .ok [3, 3] :=
  ⟨by decide, by decide, by decide, rfl⟩

/-- C10 amended: upload normalization converts exactly the `'RGBA'` mode to
`'RGB'` and passes every other mode through unchanged; single-band modes such
as `'L'` and `'P'` yield a 2-D (not 3-channel) array; and the analysis step's
`reshape(-1, 3)` succeeds iff the element count is divisible by 3 (e.g. it
raises on a 4×4 `'L'` image), so the spec's loader-normalization stage does not
hold for non-RGBA non-RGB modes. -/
theorem c10_mode_normalization :
    (∀ img : UploadedImage, img.mode ≠ "RGBA" → loadNormalize img = img)
    ∧ (∀ img : UploadedImage,
        (loadNormalize img).mode = if img.mode = "RGBA" then "RGB" else img.mode)
    ∧ channelCount "L" = 1
    ∧ channelCount "P" = 1
    ∧ (∀ img : UploadedImage, channelCount img.mode = 1 →
        npArrayShape img = [img.hgt, img.wid])
    ∧ (∀ s : List ℕ, (∃ t, reshapeNeg1x3 s = .ok t) ↔ s.prod % 3 = 0)
    ∧ reshapeNeg1x3 (resizeShape (npArrayShape ⟨"L", 4, 4⟩) 4 4)
        = .error (.valueError "cannot reshape array") := by
  refine ⟨?_, ?_, rfl, rfl, ?_, ?_, rfl⟩
  · intro img h
    unfold loadNormalize
    simp [h]
  · intro img
    unfold loadNormalize
    split <;> simp_all
  · intro img h
    unfold npArrayShape
    simp [h]
  · intro s
    unfold reshapeNeg1x3
    by_cases h : s.prod % 3 = 0 <;> simp [h]

/-- Witness for C10's amended theorem on concrete modes and shapes. -/
theorem c10_witness :
    loadNormalize ⟨"L", 2, 2⟩ = ⟨"L", 2, 2⟩ ∧ npArrayShape ⟨"P", 2, 3⟩ = [2, 3] :=
  ⟨c10_mode_normalization.1 ⟨"L", 2, 2⟩ (by decide),
    c10_mode_normalization.2.2.2.2.1 ⟨"P", 2, 3⟩ (by decide)⟩

/-- C7: the analysis is deterministic across requests.  Repeating a request
with identical inputs (same image content, cluster count, downsample factor)
returns the identical result and leaves the session state unchanged; and
whenever the cache holds an entry at the request's key, the cycle returns that
stored sequence with no recomputation (the state is untouched). -/
theorem c7_cache_deterministic :
    (∀ (st : SessionState) (image : Img) (n_colors : ℕ) (resize_factor : ℚ),
        processUpload (processUpload st image n_colors resize_factor).2
            image n_colors resize_factor
          = processUpload st image n_colors resize_factor)
    ∧ (∀ (st : SessionState) (image : Img) (n_colors : ℕ) (resize_factor : ℚ)
          (colors : List ColorInfo),
        (invalidateOnImageChange st (get_image_hash image)).cache.lookup
            (cacheKey (get_image_hash image) n_colors resize_factor)
          = some colors →
        processUpload st image n_colors resize_factor
          = (.rendered colors,
              invalidateOnImageChange st (get_image_hash image))) := by
  constructor
  · intro st image n_colors resize_factor
    cases hl : (invalidateOnImageChange st (get_image_hash image)).cache.lookup
        (cacheKey (get_image_hash image) n_colors resize_factor) with
    | some colors =>
      have h1 : processUpload st image n_colors resize_factor
          = (.rendered colors, invalidateOnImageChange st (get_image_hash image)) := by
        simp only [processUpload]
        rw [hl]
      rw [h1]
      simp only [processUpload]
      rw [invalidate_of_last _ _ (invalidate_last_eq st _), hl]
    | none =>
      have h1 : processUpload st image n_colors resize_factor
          = (.stopped ("❌ Error dalam analisis: " ++ pyErrMsg (.nameError "cv2")),
              invalidateOnImageChange st (get_image_hash image)) := by
        simp only [processUpload]
        rw [hl, extract_always_nameError]
      rw [h1]
      simp only [processUpload]
      rw [invalidate_of_last _ _ (invalidate_last_eq st _), hl, extract_always_nameError]
  · intro st image n_colors resize_factor colors h
    simp only [processUpload]
    rw [h]

/-- A session that already holds a cached result for `demoImg` at the
parameters `(5, 1)`, used to instantiate the cache-hit theorem. -/
def primedSession : SessionState :=
  ⟨some (get_image_hash demoImg), none,
    [(cacheKey (get_image_hash demoImg) 5 1, demoColors)]⟩

/-- Witness for C7: a cache hit on a concrete primed session returns the
stored sequence and leaves the state unchanged. -/
theorem c7_witness :
    processUpload primedSession demoImg 5 1
      = (.rendered demoColors,
          invalidateOnImageChange primedSession (get_image_hash demoImg)) :=
  c7_cache_deterministic.2 primedSession demoImg 5 1 demoColors (by
    rw [invalidate_of_last _ _ rfl]
    simp [primedSession, List.lookup])

/-- On inputs below 16, the hex digit list is the single digit. -/
lemma hexDigitsList_small (n : ℕ) (h : n < 16) :
    hexDigitsList n = [Nat.digitChar n] := by
  unfold hexDigitsList
  simp [h]

/-- On inputs in `[16, 256)`, the hex digit list is the two digits. -/
lemma hexDigitsList_two (n : ℕ) (h1 : 16 ≤ n) (h2 : n < 256) :
    hexDigitsList n = [Nat.digitChar (n / 16), Nat.digitChar (n % 16)] := by
  unfold hexDigitsList
  have hn : ¬n < 16 := by omega
  simp only [hn, dite_false]
  rw [hexDigitsList_small (n / 16) (by omega)]
  rfl

/-- Python `'{:02x}'` of a byte value is exactly its two lowercase hex digits. -/
lemma format02x_byte (n : ℕ) (h : n < 256) :
    format02x n = String.mk [Nat.digitChar (n / 16), Nat.digitChar (n % 16)] := by
  by_cases h16 : n < 16
  · unfold format02x
    rw [hexDigitsList_small n h16, Nat.div_eq_of_lt h16, Nat.mod_eq_of_lt h16]
    rfl
  · unfold format02x
    rw [hexDigitsList_two n (by omega) h]
    rfl

/-- Parsing a produced hex digit recovers its value. -/
lemma hexDigitVal_digitChar : ∀ d, d < 16 → hexDigitVal (Nat.digitChar d) = some d := by
  decide

/-- Every produced hex digit is one of the sixteen lowercase characters. -/
lemma digitChar_mem_hexLower : ∀ d, d < 16 → Nat.digitChar d ∈ hexLowerChars := by
  decide

/-- The character data of a formatted hex color, for byte components. -/
lemma hex_code_data (r g b : ℕ) (hr : r < 256) (hg : g < 256) (hb : b < 256) :
    (hex_code (r, g, b)).data
      = ['#', Nat.digitChar (r / 16), Nat.digitChar (r % 16),
          Nat.digitChar (g / 16), Nat.digitChar (g % 16),
          Nat.digitChar (b / 16), Nat.digitChar (b % 16)] := by
  unfold hex_code
  rw [format02x_byte r hr, format02x_byte g hg, format02x_byte b hb]
  rfl

/-- C3: for components in `[0, 255]`, the hex string of line 73 is `'#'`
followed by exactly six lowercase hex digits (two zero-padded digits per
channel), and parsing it back recovers exactly `(r, g, b)`. -/
theorem c3_hex_round_trip (r g b : ℕ)
    (hr : r ≤ 255) (hg : g ≤ 255) (hb : b ≤ 255) :
    parseHexColor (hex_code (r, g, b)) = some (r, g, b)
    ∧ (hex_code (r, g, b)).data.length = 7
    ∧ (hex_code (r, g, b)).data.head? = some '#'
    ∧ ∀ ch ∈ (hex_code (r, g, b)).data.tail, ch ∈ hexLowerChars := by
  have hdata := hex_code_data r g b (by omega) (by omega) (by omega)
  refine ⟨?_, ?_, ?_, ?_⟩
  · unfold parseHexColor
    rw [hdata]
    simp only [hexDigitVal_digitChar (r / 16) (by omega),
      hexDigitVal_digitChar (r % 16) (by omega),
      hexDigitVal_digitChar (g / 16) (by omega),
      hexDigitVal_digitChar (g % 16) (by omega),
      hexDigitVal_digitChar (b / 16) (by omega),
      hexDigitVal_digitChar (b % 16) (by omega),
      Option.bind_eq_bind, Option.some_bind]
    have er : r / 16 * 16 + r % 16 = r := by omega
    have eg : g / 16 * 16 + g % 16 = g := by omega
    have eb : b / 16 * 16 + b % 16 = b := by omega
    simp [er, eg, eb]
  · rw [hdata]
    rfl
  · rw [hdata]
    rfl
  · rw [hdata]
    intro ch hch
    simp only [List.tail_cons, List.mem_cons, List.not_mem_nil, or_false] at hch
    rcases hch with rfl | rfl | rfl | rfl | rfl | rfl <;>
      exact digitChar_mem_hexLower _ (by omega)

/-- Witness for C3 at a concrete color. -/
theorem c3_witness : parseHexColor (hex_code (255, 0, 10)) = some (255, 0, 10) :=
  (c3_hex_round_trip 255 0 10 (by decide) (by decide) (by decide)).1

/-- Summing the indicator of one index over `range k` gives 1 when it is hit. -/
lemma sum_indicator_range (k a : ℕ) (h : a < k) :
    ((List.range k).map fun i => if a == i then (1 : ℚ) else 0).sum = 1 := by
  induction k with
  | zero => omega
  | succ k ih =>
    rw [List.range_succ, List.map_append, List.sum_append]
    by_cases hk : a = k
    · subst hk
      have hz : ((List.range a).map fun i => if a == i then (1 : ℚ) else 0)
          = (List.range a).map fun _ => (0 : ℚ) := by
        apply List.map_congr_left
        intro x hx
        have hxa : a ≠ x := (Nat.ne_of_lt (List.mem_range.mp hx)).symm
        simp [hxa]
      rw [hz]
      simp
    · have ha : a < k := by omega
      rw [ih ha]
      simp [hk]

/-- Every label lies below `k`, so the per-cluster counts over `range k`
sum to the number of labels. -/
lemma count_cast_sum (labels : List ℕ) (k : ℕ) (h : ∀ l ∈ labels, l < k) :
    ((List.range k).map fun i => (labels.count i : ℚ)).sum = labels.length := by
  induction labels with
  | nil => simp
  | cons a as ih =>
    have ha : a < k := h a (List.mem_cons_self a as)
    have h' : ∀ l ∈ as, l < k := fun l hl => h l (List.mem_cons_of_mem a hl)
    have hmap : ((List.range k).map fun i => ((a :: as).count i : ℚ))
        = (List.range k).map fun i => ((as.count i : ℚ) + if a == i then (1 : ℚ) else 0) := by
      apply List.map_congr_left
      intro i _
      rw [List.count_cons]
      push_cast
      rfl
    rw [hmap, List.sum_map_add, ih h', sum_indicator_range k a ha]
    simp only [List.length_cons]
    push_cast
    ring

/-- The percentages of the summarizer's list, indexed over the centers. -/
lemma summarize_pct (centers : List RGB) (labels : List ℕ) :
    (summarize centers labels).map (fun c => c.percentage)
      = (List.range centers.length).map
          (fun i => (labels.count i : ℚ) / labels.length * 100) := by
  unfold summarize
  rw [List.map_map]
  show centers.enum.map
      (fun ic => (labels.count ic.1 : ℚ) / labels.length * 100)
    = (List.range centers.length).map
        fun i => (labels.count i : ℚ) / labels.length * 100
  rw [show (fun ic : ℕ × RGB => (labels.count ic.1 : ℚ) / labels.length * 100)
      = (fun i => (labels.count i : ℚ) / labels.length * 100) ∘ Prod.fst from rfl]
  rw [← List.map_map, List.enum_map_fst]

/-- C4: for any clustering run — any per-pixel label list over the clusters of
a nonempty pixel set — the population shares in the sorted result of lines
67–81 sum to exactly 100 (so in particular within the 0.01 tolerance). -/
theorem c4_shares_sum_100 (centers : List RGB) (labels : List ℕ)
    (hne : labels ≠ []) (hk : ∀ l ∈ labels, l < centers.length) :
    ((sortColors (summarize centers labels)).map fun c => c.percentage).sum
      = 100 := by
  have hperm : List.Perm
      ((sortColors (summarize centers labels)).map fun c => c.percentage)
      ((summarize centers labels).map fun c => c.percentage) :=
    (List.mergeSort_perm (summarize centers labels) pctLe).map _
  rw [hperm.sum_eq, summarize_pct]
  have hT : (labels.length : ℚ) ≠ 0 := by
    have h0 : 0 < labels.length := List.length_pos.mpr hne
    exact_mod_cast h0.ne'
  have hrw : ((List.range centers.length).map
        fun i => (labels.count i : ℚ) / labels.length * 100)
      = (List.range centers.length).map
          fun i => (labels.count i : ℚ) * (100 / labels.length) := by
    apply List.map_congr_left
    intro i _
    ring
  rw [hrw, List.sum_map_mul_right, count_cast_sum labels centers.length hk]
  field_simp

/-- Witness for C4 on a concrete two-cluster run with three pixels. -/
theorem c4_witness :
    ((sortColors (summarize [(1, 2, 3), (4, 5, 6)] [0, 1, 1])).map
        fun c => c.percentage).sum = 100 :=
  c4_shares_sum_100 [(1, 2, 3), (4, 5, 6)] [0, 1, 1] (by decide) (by decide)

/-- `pctLe` is transitive. -/
lemma pctLe_trans : ∀ a b c : ColorInfo, pctLe a b → pctLe b c → pctLe a c := by
  intro a b c hab hbc
  simp only [pctLe, decide_eq_true_eq] at *
  exact le_trans hbc hab

/-- `pctLe` is total. -/
lemma pctLe_total : ∀ a b : ColorInfo, pctLe a b || pctLe b a := by
  intro a b
  simp only [pctLe, Bool.or_eq_true, decide_eq_true_eq]
  exact le_total b.percentage a.percentage

/-- C5: the sequence returned by a run (line 81) is sorted in descending order
of `percentage`, and it is a stable sort of the summarizer's list: for every
percentage value, the entries carrying it appear exactly as in the input
cluster order. -/
theorem c5_sorted_stable (centers : List RGB) (labels : List ℕ) :
    (sortColors (summarize centers labels)).Pairwise
        (fun a b => b.percentage ≤ a.percentage)
    ∧ ∀ q : ℚ,
        (sortColors (summarize centers labels)).filter
            (fun c => decide (c.percentage = q))
          = (summarize centers labels).filter
              (fun c => decide (c.percentage = q)) := by
  constructor
  · have hs := List.sorted_mergeSort pctLe_trans pctLe_total
      (summarize centers labels)
    exact hs.imp fun h => of_decide_eq_true h
  · intro q
    have hmem : ∀ x ∈ (summarize centers labels).filter
          (fun c => decide (c.percentage = q)),
        ∀ y ∈ (summarize centers labels).filter
          (fun c => decide (c.percentage = q)), pctLe x y := by
      intro x hx y hy
      have hx' : x.percentage = q := by
        simpa using (List.mem_filter.mp hx).2
      have hy' : y.percentage = q := by
        simpa using (List.mem_filter.mp hy).2
      simp [pctLe, hx', hy']
    have hpair := List.pairwise_of_forall_mem_list hmem
    have hsub : List.Sublist
        ((summarize centers labels).filter (fun c => decide (c.percentage = q)))
        (List.mergeSort (summarize centers labels) pctLe) :=
      List.sublist_mergeSort pctLe_trans pctLe_total hpair
        (List.filter_sublist (summarize centers labels))
    have hsub2 := hsub.filter (fun c => decide (c.percentage = q))
    rw [List.filter_filter] at hsub2
    have hband : (fun c : ColorInfo =>
          decide (c.percentage = q) && decide (c.percentage = q))
        = fun c => decide (c.percentage = q) := by
      funext c
      cases hq : decide (c.percentage = q) <;> simp [hq]
    rw [hband] at hsub2
    have hperm : List.Perm
        ((List.mergeSort (summarize centers labels) pctLe).filter
          (fun c => decide (c.percentage = q)))
        ((summarize centers labels).filter (fun c => decide (c.percentage = q))) :=
      (List.mergeSort_perm (summarize centers labels) pctLe).filter _
    exact (hsub2.eq_of_length hperm.length_eq.symm).symm

end ColorExtract
